import Mathlib

/-!
Verification development for the Geobridge globe application (src/App.js).

The development shallowly embeds the algorithmic core of the application:
the adaptive statistical normalization engine (heightStats /
getPolygonHeight), the region classifiers (getCountryRegion,
createDataDrivenRegions), the boundary extractor (findSharedBoundary,
sortBoundaryPoints, createManualRegionBoundaries,
createDataDrivenRegionBoundaries), the metric-source registry
(AVAILABLE_DATASETS, HEIGHT_GETTERS) and the feature-loading filters.

JavaScript numbers are modelled by exact rationals (and by real numbers
where the code applies Math.pow / Math.sqrt with non-integral arguments);
comparisons of Euclidean distances against nonnegative bounds are modelled
by the equivalent comparisons of squared distances, which avoids square
roots without changing any branch outcome.
-/

set_option allowUnsafeReducibility true

attribute [local semireducible] Rat.add Rat.mul Rat.inv Rat.div Rat.sub Rat.neg

set_option maxRecDepth 40000

namespace Geobridge

/-! ## Statistics core (App.js, heightStats memo, lines 1369-1435) -/

/-- HeightStatistics records the fields of the object returned by the
heightStats memo: max, min, mean, median, the ascending-sorted positive
values, the outlier-dampened adjustedMax and the outlier list. -/
structure HeightStatistics where
  max : ℚ
  min : ℚ
  mean : ℚ
  median : ℚ
  values : List ℚ
  adjustedMax : ℚ
  outliers : List ℚ
deriving Repr, DecidableEq

/-- Default statistics object returned when no dataset is active or no
positive values exist (App.js lines 1371 and 1378). -/
def defaultStats : HeightStatistics :=
  { max := 1, min := 0, mean := 1/2, median := 1/2
    values := [], adjustedMax := 1, outliers := [] }

/-- Model of JavaScript Math.max(...values) on a nonempty array
(the empty case never occurs in the guarded code; 0 is a dummy). -/
def jsMaxList : List ℚ → ℚ
  | [] => 0
  | h :: t => t.foldl max h

/-- Model of JavaScript Math.min(...values) on a nonempty array. -/
def jsMinList : List ℚ → ℚ
  | [] => 0
  | h :: t => t.foldl min h

/-- Ascending sort of the positive values:
`.filter(v => v > 0).sort((a, b) => a - b)` (App.js line 1375). -/
def sortedPositiveValues (raw : List ℚ) : List ℚ :=
  (raw.filter (fun v => 0 < v)).insertionSort (· ≤ ·)

/-- Mean of the value array: `values.reduce((s, v) => s + v, 0) / values.length`
(App.js line 1383). -/
def meanOf (values : List ℚ) : ℚ :=
  values.sum / values.length

/-- Median of the ascending-sorted value array (App.js lines 1384-1386). -/
def medianOf (values : List ℚ) : ℚ :=
  if values.length % 2 = 0 then
    (values.getD (values.length / 2 - 1) 0 + values.getD (values.length / 2) 0) / 2
  else
    values.getD (values.length / 2) 0

/-- Percentile element used throughout heightStats:
`values[Math.floor(values.length * p / 100)]`.  For p < 100 the index
floor(n * p / 100) is exactly n * p / 100 in natural division. -/
def percentileOf (values : List ℚ) (p : ℕ) : ℚ :=
  values.getD (values.length * p / 100) 0

/-- Outlier threshold `q3 + iqr * 2.5` (App.js lines 1394-1395). -/
def outlierThresholdOf (values : List ℚ) : ℚ :=
  percentileOf values 75 + (percentileOf values 75 - percentileOf values 25) * (5/2)

/-- Outlier-crusher test of App.js lines 1397-1408: each ratio divides the
maximum by `Math.max(denominator, 1)`, and the fourth disjunct is the IQR
outlier test. -/
def isExtremeCrusher (values : List ℚ) : Bool :=
  let maxV := jsMaxList values
  let mean := meanOf values
  let median := medianOf values
  let p95 := percentileOf values 95
  if maxV / max p95 1 > 3 ∨ maxV / max mean 1 > 8 ∨
     maxV / max median 1 > 10 ∨ maxV > outlierThresholdOf values then
    true
  else
    false

/-- Statistics of an already-filtered, ascending-sorted value array
(App.js lines 1377-1434). -/
def statsOfSorted (values : List ℚ) : HeightStatistics :=
  if values = [] then defaultStats
  else
    let maxV := jsMaxList values
    let minV := jsMinList values
    let mean := meanOf values
    let median := medianOf values
    let p95 := percentileOf values 95
    let threshold := outlierThresholdOf values
    if isExtremeCrusher values then
      let outliers := values.filter (fun v =>
        v > threshold ∨ v / max p95 1 > 5/2 ∨ v / max mean 1 > 6)
      let option1 := p95 * (3/2)
      let option2 := mean * 3
      let option3 := median * 4
      let adjusted1 := max (max option1 option2) option3
      let adjusted2 := max adjusted1 (maxV * (3/10))
      let adjusted3 := min adjusted2 (maxV * (4/5))
      { max := maxV, min := minV, mean := mean, median := median
        values := values, adjustedMax := adjusted3, outliers := outliers }
    else
      { max := maxV, min := minV, mean := mean, median := median
        values := values, adjustedMax := maxV, outliers := [] }

/-- Statistics computation of the heightStats memo (App.js lines 1375-1434),
taking the list of already-extracted dataset values (the results of the
HEIGHT_GETTERS accessor over the feature collection). -/
def computeStatistics (raw : List ℚ) : HeightStatistics :=
  statsOfSorted (sortedPositiveValues raw)

/-! ## Per-feature height (App.js, getPolygonHeight, lines 1491-1663) -/

/-- Base polygon altitude (App.js line 1494). -/
def baseHeight : ℚ := 1/200

/-- Whitelist of built-in dataset ids with fixed scaling (App.js line 1521). -/
def BUILT_IN_IDS : List String := ["gdp", "population", "area", "neighbors"]

/-- Registry entry of AVAILABLE_DATASETS as far as the height pipeline
consumes it: id, category, unit and the disabled flag.  The value accessor
itself reads external data caches (an external collaborator) and is
modelled separately as a parameter producing a RawOutcome. -/
structure DatasetDescriptor where
  id : String
  category : String
  unit : String
  disabled : Bool
deriving Repr, DecidableEq

/-- Height multiplier selection (App.js lines 1628-1637): base 0.25,
overridden to 0.3 for built-in ids, kept 0.25 for percent units, and 0.28
for USGS Minerals / Energy Institute categories. -/
def heightMultiplier (heightFilter : String) (dataset : Option DatasetDescriptor) : ℚ :=
  if heightFilter ∈ BUILT_IN_IDS then 3/10
  else if dataset.map DatasetDescriptor.unit = some "%" then 1/4
  else if dataset.map DatasetDescriptor.category = some "USGS Minerals" ∨
          dataset.map DatasetDescriptor.category = some "Energy Institute" then 7/25
  else 1/4

/-- Pre-scaling normalized value (App.js lines 1505-1517): outliers above
the working max may exceed 1.0 (up to 1.8); all other values are clamped
to at most 1.0. -/
def normalizedValue (stats : HeightStatistics) (value : ℚ) : ℚ :=
  let workingMax := stats.adjustedMax
  if value ∈ stats.outliers ∧ workingMax < value then
    1 + ((value - workingMax) / (stats.max - workingMax)) * (4/5)
  else
    min 1 ((value - stats.min) / (workingMax - stats.min))

section RealHeight

open scoped Classical

/-- Adaptive exponent for non-built-in datasets (App.js lines 1539-1610):
base tendency from the coefficient of variation, dampened by outlier
intensity signals, then clamped to the expansive range [1.1, 3.5] or the
compressive range [0.3, 0.95].  The code also computes an unused p75. -/
noncomputable def clampExponent (e5 : ℝ) : ℝ :=
  if e5 > 1 then max 1.1 (min 3.5 e5) else max 0.3 (min 0.95 e5)

/-- Phases 1 to 3 of the adaptive exponent computation, before the phase-4
clamp. -/
noncomputable def adaptiveExponentRaw (stats : HeightStatistics) : ℝ :=
  let values := stats.values
  let mean : ℝ := (stats.mean : ℚ)
  let stdDev := Real.sqrt ((values.map (fun v => ((v : ℝ) - mean) ^ 2)).sum / values.length)
  let cv := stdDev / max mean 0.001
  let sortedValues := values.insertionSort (· ≤ ·)
  let p90 : ℝ := (percentileOf sortedValues 90 : ℚ)
  let p95 : ℝ := (percentileOf sortedValues 95 : ℚ)
  let p99 : ℝ := (percentileOf sortedValues 99 : ℚ)
  let maxToP95 := (stats.max : ℝ) / max p95 0.001
  let maxToP90 := (stats.max : ℝ) / max p90 0.001
  let p99ToP90 := p99 / max p90 0.001
  let topCompression := ((stats.max : ℝ) - p95) / max ((stats.max : ℝ) - (stats.min : ℝ)) 0.001
  let e1 := if cv < 0.4 then 2 + (0.4 - cv) * 2.5
            else if cv > 1.2 then max 0.4 (1 - (cv - 1.2) * 0.3)
            else 1 + (0.8 - |cv - 0.8|) * 1.5
  let e2 := if maxToP95 > 3 then e1 * (1 - min 1 ((maxToP95 - 3) / 7) * 0.6) else e1
  let e3 := if topCompression > 0.3 then e2 * (1 - min 1 ((topCompression - 0.3) / 0.4) * 0.4) else e2
  let e4 := if p99ToP90 > 2 then e3 * 0.8 else e3
  if maxToP90 > 5 then min e4 0.6 else e4

/-- Adaptive exponent: the dampened base tendency clamped by phase 4. -/
noncomputable def adaptiveExponent (stats : HeightStatistics) : ℝ :=
  clampExponent (adaptiveExponentRaw stats)

/-- Phase-6 anti-clustering smoothing (App.js lines 1616-1624). -/
noncomputable def smoothScaled (e n1 : ℝ) : ℝ :=
  if e > 1 ∧ n1 > 0.9 then 0.9 + ((n1 - 0.9) / 0.1) * 0.1 * 0.85
  else if e < 1 ∧ n1 < 0.1 then (n1 / 0.1) * 0.15
  else n1

/-- Scaling of the normalized value (App.js lines 1519-1625): fixed per-id
treatment for the built-in whitelist, otherwise the adaptive power law
followed by the anti-clustering smoothing of lines 1616-1624. -/
noncomputable def scaleNormalized (heightFilter : String) (stats : HeightStatistics) (nb : ℚ) : ℝ :=
  if heightFilter ∈ BUILT_IN_IDS then
    if heightFilter = "gdp" then (nb : ℝ)
    else if heightFilter = "area" then (nb : ℝ) ^ (0.7 : ℝ)
    else if heightFilter = "population" then (nb : ℝ) ^ (0.6 : ℝ)
    else (nb : ℝ)
  else
    smoothScaled (adaptiveExponent stats) ((nb : ℝ) ^ adaptiveExponent stats)

/-- Pre-hover calculated height of an elevated polygon (App.js lines
1498-1646): 0-guarded normalization, scaling, and the outlier overflow
term of lines 1640-1645.  Hover adjustments (lines 1650-1660) are additive
afterwards and are not part of this value. -/
noncomputable def computeHeight (heightFilter : String) (dataset : Option DatasetDescriptor)
    (stats : HeightStatistics) (value : ℚ) : ℝ :=
  if 0 < value ∧ stats.min < stats.max then
    let isOutlier := value ∈ stats.outliers
    let nb := normalizedValue stats value
    let normalized := scaleNormalized heightFilter stats nb
    let mult : ℝ := (heightMultiplier heightFilter dataset : ℚ)
    if isOutlier ∧ normalized > 1 then
      (baseHeight : ℝ) + mult * 1 + (normalized - 1) * mult * (0.8 : ℝ)
    else
      normalized * mult + (baseHeight : ℝ)
  else (baseHeight : ℝ)

end RealHeight

/-! ## Geometry and boundary extraction (App.js lines 102-319) -/

/-- Coordinate pair [lng, lat]. -/
abbrev Coord := ℚ × ℚ

/-- Squared planar Euclidean distance.  The code compares
`Math.sqrt(dx*dx + dy*dy)` against nonnegative bounds; comparing the
squares is equivalent and keeps every branch outcome identical. -/
def sqDist (a b : Coord) : ℚ :=
  (a.1 - b.1) ^ 2 + (a.2 - b.2) ^ 2

/-- GeoJSON geometry as consumed by extractCoordinates: a polygon is a
list of rings, a multi-polygon a list of polygons; anything else
contributes an empty ring (App.js line 258, spec section 7). -/
inductive Geometry where
  | polygon (rings : List (List Coord))
  | multiPolygon (polygons : List (List (List Coord)))
  | unsupported
deriving Repr, DecidableEq

/-- Representative outer ring (App.js lines 241-259): the outer ring of a
polygon, or for a multi-polygon the outer ring of the part with the most
vertices (first such part wins on ties, matching the strict `>` update). -/
def extractCoordinates : Geometry → List Coord
  | .polygon rings => rings.headD []
  | .multiPolygon [] => []
  | .multiPolygon (p :: ps) =>
      (ps.foldl (fun best q =>
        if (q.headD []).length > (best.headD []).length then q else best) p).headD []
  | .unsupported => []

/-- First-strict-minimum selection of the nearest remaining point together
with the remaining list after removing it, implementing the inner loop of
sortBoundaryPoints (App.js lines 298-315): the scan keeps the earliest
index attaining the minimum distance and splices it out. -/
def pickNearest (last : Coord) : List Coord → Coord × List Coord
  | [] => ((0, 0), [])
  | [p] => (p, [])
  | p :: q :: rest =>
      let pr := pickNearest last (q :: rest)
      if sqDist last pr.1 < sqDist last p then (pr.1, p :: pr.2) else (p, q :: rest)

/-- Greedy nearest-neighbor chaining loop of sortBoundaryPoints (App.js
lines 297-316), written with a fuel argument equal to the number of
remaining points (the while loop runs exactly that many iterations). -/
def chainPoints : ℕ → Coord → List Coord → List Coord
  | 0, _, _ => []
  | _ + 1, _, [] => []
  | fuel + 1, last, p :: rest =>
      let pr := pickNearest last (p :: rest)
      pr.1 :: chainPoints fuel pr.1 pr.2

/-- Boundary-point ordering (App.js lines 291-319). -/
def sortBoundaryPoints (points : List Coord) : List Coord :=
  if points.length ≤ 2 then points
  else
    match points with
    | [] => []
    | p :: rest => p :: chainPoints rest.length p rest

/-- Shared-boundary search (App.js lines 262-288): every point of the
first ring is compared against every not-yet-consumed index of the second
ring; each match below the tolerance records the ring-A point and consumes
the matched ring-B index.  With at least 2 shared points the result is
ordered by sortBoundaryPoints. -/
def findSharedBoundary (coords1 coords2 : List Coord) (tolerance : ℚ := 1/100) : List Coord :=
  let step : List Coord × List ℕ → Coord → List Coord × List ℕ := fun st c1 =>
    coords2.enum.foldl (fun st2 ip =>
      if ip.1 ∈ st2.2 then st2
      else if sqDist c1 ip.2 < tolerance ^ 2 then (st2.1 ++ [c1], st2.2 ++ [ip.1])
      else st2) st
  let shared := (coords1.foldl step ([], [])).1
  if 2 ≤ shared.length then sortBoundaryPoints shared else shared

/-! ## Features, country codes, region tables (App.js lines 5-82) -/

/-- Property bag fields consumed by the core (App.js property accesses). -/
structure FeatureProps where
  ISO_A2 : Option String
  ADMIN : Option String
  NAME : Option String
  CONTINENT : Option String
  SUBREGION : Option String
  REGION_UN : Option String
deriving Repr, DecidableEq

/-- Geographic feature: property bag plus geometry. -/
structure Feature where
  props : FeatureProps
  geometry : Geometry
deriving Repr, DecidableEq

/-- JavaScript truthiness fallback for strings: an absent or empty string
falls through to the default (`a || b`). -/
def jsOr (o : Option String) (d : String) : String :=
  match o with
  | some s => if s = "" then d else s
  | none => d

/-- Static region partition (App.js lines 5-45). -/
def REGIONS : List (String × List String) :=
  [("north_america", ["CA", "US", "MX"]),
   ("central_america_caribbean",
     ["GT", "BZ", "HN", "SV", "NI", "CR", "PA", "CU", "JM", "HT",
      "DO", "KN", "AG", "DM", "LC", "BB", "VC", "GD", "BS"]),
   ("south_america",
     ["AR", "BR", "BO", "CL", "PY", "UY", "CO", "EC", "VE",
      "GY", "SR", "PE"]),
   ("southwest_europe", ["ES", "PT", "AD"]),
   ("south_europe", ["IT", "GR", "MT", "SM"]),
   ("central_europe", ["DE", "AT", "LI", "CH", "PL", "HU", "SK", "CZ", "SI"]),
   ("west_europe", ["GB", "IE", "NL", "BE", "LU", "MC", "FR"]),
   ("north_europe", ["DK", "IS", "NO", "SE", "FI"]),
   ("southeast_europe", ["AL", "BA", "HR", "MK", "ME", "RS", "RO", "BG", "XK"]),
   ("east_europe", ["RU", "EE", "LV", "LT", "BY", "UA", "MD"]),
   ("north_africa", ["EG", "LY", "DZ", "MA", "TN"]),
   ("central_africa", ["TD", "CF", "CM", "GQ", "GA", "CG", "CD", "AO"]),
   ("east_africa",
     ["SD", "ER", "DJ", "SO", "ET", "SS", "KE", "UG", "TZ",
      "RW", "BI", "ZM", "MW", "MZ", "ZW", "KM", "MG"]),
   ("west_africa",
     ["EH", "MR", "ML", "SN", "GM", "GW", "GN", "SL", "LR",
      "CI", "GH", "TG", "BJ", "BF", "NE", "NG"]),
   ("south_africa", ["NA", "BW", "ZA", "SZ", "LS"]),
   ("middle_east",
     ["GE", "CY", "TR", "SY", "LB", "AZ", "AM", "IR", "IQ",
      "IL", "JO", "SA", "YE", "OM", "BH", "QA", "AE", "KW", "PS"]),
   ("indian_subcontinent", ["IN", "AF", "PK", "NP", "BD", "BT", "LK"]),
   ("central_asia", ["KZ", "UZ", "TM", "TJ", "KG"]),
   ("eastern_asia",
     ["CN", "KP", "KR", "JP", "MM", "TH", "KH", "VN", "LA",
      "ID", "PH", "PG", "MY", "CN-TW", "MN"]),
   ("oceania", ["AU", "NZ", "FJ", "VU", "SB", "PW", "NR", "MH", "WS", "TO", "KI"]),
   ("antarctica", ["AQ"])]

/-- Excluded country codes (App.js lines 56-60). -/
def EXCLUDED_COUNTRIES : List String :=
  ["MU", "JE", "GG", "IM", "FO", "AX", "PM", "CV", "GS", "MV", "IO", "MP", "FM",
   "SC", "NF", "ST", "SH", "BM", "TV", "AS", "NU", "CK", "PF", "PN", "WF", "TC",
   "KY", "AW", "CW", "VI", "VG", "AI", "MF", "SX", "BL", "MS", "HM", "TF", "GL",
   "XN", "-99"]

/-- Manual mapping for problematic countries (App.js lines 63-69). -/
def MANUAL_COUNTRY_MAPPING : List (String × String) :=
  [("Norway", "NO"), ("France", "FR"), ("Kosovo", "XK"),
   ("Somaliland", "XS"), ("Northern Cyprus", "XN")]

/-- JavaScript object-key assignment: overwrite the existing key in place
or append a new one (`acc[k] = v`). -/
def objUpsert {V : Type} (acc : List (String × V)) (k : String) (v : V) : List (String × V) :=
  if acc.any (fun p => p.1 = k) then acc.map (fun p => if p.1 = k then (k, v) else p)
  else acc ++ [(k, v)]

/-- Inverted code-to-region lookup table (App.js lines 48-53), built by the
same reduce-with-assignment as the source. -/
def REGION_MAPPING : List (String × String) :=
  REGIONS.foldl (fun acc rg => rg.2.foldl (fun a c => objUpsert a c rg.1) acc) []

/-- Country-code resolution (App.js lines 72-82): the primary 2-letter
field wins when present and not an invalid sentinel (empty string is falsy
in JavaScript); otherwise the manual table is consulted by ADMIN then NAME,
finally falling back to the raw primary field. -/
def getCountryCode (f : Feature) : Option String :=
  let iso2 := f.props.ISO_A2
  let fallback :=
    (f.props.ADMIN.bind (fun a => MANUAL_COUNTRY_MAPPING.lookup a)).orElse (fun _ =>
      (f.props.NAME.bind (fun n => MANUAL_COUNTRY_MAPPING.lookup n)).orElse (fun _ => iso2))
  match iso2 with
  | some s => if s ≠ "" ∧ s ≠ "-99" ∧ s ≠ "n/a" then some s else fallback
  | none => fallback

/-! ## Region classification (App.js lines 159-196 and 1330-1360) -/

/-- Character class of the regex `/[\s&]+/`: whitespace or ampersand. -/
def isSpaceOrAmp (c : Char) : Bool :=
  c.isWhitespace || c = '&'

/-- Collapse every maximal run of characters matched by p into a single
underscore, as `.replace(/[...]+/g, '_')` does; the Boolean tracks whether
the previous character belonged to the current run. -/
def collapseRuns (p : Char → Bool) : Bool → List Char → List Char
  | _, [] => []
  | inRun, c :: rest =>
      if p c then
        (if inRun then collapseRuns p true rest else '_' :: collapseRuns p true rest)
      else c :: collapseRuns p false rest

/-- Slug used by the derived classifier:
`.toLowerCase().replace(/[\s&]+/g, '_')` (App.js lines 1341-1354). -/
def slugify (s : String) : String :=
  String.mk (collapseRuns isSpaceOrAmp false (s.data.map Char.toLower))

/-- Continent of a feature: `properties.CONTINENT || 'Unknown'`. -/
def featureContinent (f : Feature) : String :=
  jsOr f.props.CONTINENT "Unknown"

/-- Subregion of a feature:
`properties.SUBREGION || properties.REGION_UN || 'Unknown'`. -/
def featureSubregion (f : Feature) : String :=
  jsOr f.props.SUBREGION (jsOr f.props.REGION_UN "Unknown")

/-- Derived-mode region key from continent and subregion tags; this branch
structure is shared verbatim between getCountryRegion (App.js lines
1340-1354) and the inline grouping of createDataDrivenRegions (lines
167-190). -/
def derivedRegionKey (continent subregion : String) : String :=
  if continent = "Europe" then slugify ("europe_" ++ subregion)
  else if continent = "Africa" then slugify ("africa_" ++ subregion)
  else if continent = "Asia" then slugify ("asia_" ++ subregion)
  else if continent = "North America" then
    (if subregion = "Northern America" then "north_america" else "central_america_caribbean")
  else if continent = "South America" then "south_america"
  else if continent = "Oceania" then slugify ("oceania_" ++ subregion)
  else slugify continent

/-- Region classifier (App.js lines 1330-1360): derived mode uses the
continent/subregion key; manual mode uses the inverted static table with
an "unknown" fallback. -/
def getCountryRegion (useDataDrivenRegions : Bool) (f : Feature) : String :=
  if useDataDrivenRegions then
    derivedRegionKey (featureContinent f) (featureSubregion f)
  else
    match (getCountryCode f).bind (fun c => REGION_MAPPING.lookup c) with
    | some r => r
    | none => "unknown"

/-! ## Boundary pipelines (App.js lines 102-238 and 1476-1488) -/

/-- Boundary segment between two regions (App.js push sites, lines
131-142 and 220-231).  The source id is the string
`boundary_<r1>_<r2>_<n>` where n is the running segment count; the
distinguishing counter n is kept as the id here. -/
structure BoundarySegment where
  coordinates : List Coord
  region1 : String
  region2 : String
  country1 : Option String
  country2 : Option String
  segType : String
  id : ℕ
deriving Repr, DecidableEq

/-- Per-country-pair emission: compute the shared boundary of the two
representative rings and emit a segment only when it has at least two
points (App.js lines 125-144 and 212-233). -/
def emitPair (segType : String) (region1 region2 : String) (c1 c2 : Feature) :
    Option BoundarySegment :=
  let coords1 := extractCoordinates c1.geometry
  let coords2 := extractCoordinates c2.geometry
  let shared := findSharedBoundary coords1 coords2
  if 2 ≤ shared.length then
    some { coordinates := shared, region1 := region1, region2 := region2,
           country1 := getCountryCode c1, country2 := getCountryCode c2,
           segType := segType, id := 0 }
  else none

/-- All ordered pairs (xi, xj) with i < j, in the nested-loop order of the
source. -/
def pairsAfter {α : Type} : List α → List (α × α)
  | [] => []
  | x :: xs => xs.map (fun y => (x, y)) ++ pairsAfter xs

/-- Attach the running count as each segment's id (the source embeds
`boundaries.length` at push time, which is the final position). -/
def renumberSegments (segs : List BoundarySegment) : List BoundarySegment :=
  segs.enum.map (fun p => { p.2 with id := p.1 })

/-- Nested region-pair / country-pair loops common to both boundary
generators (App.js lines 108-146 and 206-235). -/
def boundariesFromGroups (segType : String) (groups : List (String × List Feature)) :
    List BoundarySegment :=
  renumberSegments ((pairsAfter groups).flatMap (fun rp =>
    rp.1.2.flatMap (fun c1 => rp.2.2.filterMap (fun c2 => emitPair segType rp.1.1 rp.2.1 c1 c2))))

/-- Manual region boundary generator (App.js lines 102-149): for every
pair of static regions, the member features are the countries whose
resolved code appears in the region's code list. -/
def createManualRegionBoundaries (countries : List Feature) : List BoundarySegment :=
  boundariesFromGroups "manual_boundary"
    (REGIONS.map (fun rg => (rg.1, countries.filter (fun c =>
      match getCountryCode c with
      | some code => code ∈ rg.2
      | none => false))))

/-- Insertion-ordered grouping used by createDataDrivenRegions: a new key
is appended, an existing key has the feature appended to its group,
matching JavaScript Map insertion-order semantics (App.js lines 192-195). -/
def insertGrouped (groups : List (String × List Feature)) (key : String) (f : Feature) :
    List (String × List Feature) :=
  match groups with
  | [] => [(key, [f])]
  | g :: rest => if g.1 = key then (g.1, g.2 ++ [f]) :: rest else g :: insertGrouped rest key f

/-- Data-driven grouping of countries by derived region key (App.js lines
156-199). -/
def createDataDrivenRegions (countries : List Feature) : List (String × List Feature) :=
  countries.foldl (fun gs c =>
    insertGrouped gs (derivedRegionKey (featureContinent c) (featureSubregion c)) c) []

/-- Data-driven region boundary generator (App.js lines 152-238). -/
def createDataDrivenRegionBoundaries (countries : List Feature) : List BoundarySegment :=
  boundariesFromGroups "data_driven_boundary" (createDataDrivenRegions countries)

/-- Mode dispatch of the regionBoundaries effect (App.js lines 1483-1485). -/
def regionBoundariesFor (useDataDrivenRegions : Bool) (countries : List Feature) :
    List BoundarySegment :=
  if useDataDrivenRegions then createDataDrivenRegionBoundaries countries
  else createManualRegionBoundaries countries

/-! ## Feature loading filters (App.js lines 1438-1488) -/

/-- Membership of the resolved code in the excluded set (App.js lines
1447-1450); an unresolved code is not excluded. -/
def isExcludedFeature (f : Feature) : Bool :=
  match getCountryCode f with
  | some c => c ∈ EXCLUDED_COUNTRIES
  | none => false

/-- Presence of a static region allocation for the resolved code (App.js
lines 1453-1456 and 1478-1481); region names are nonempty, hence truthy. -/
def featureHasStaticRegion (f : Feature) : Bool :=
  ((getCountryCode f).bind (fun c => REGION_MAPPING.lookup c)).isSome

/-- Features admitted by the load effect (App.js lines 1447-1456): the
excluded-country filter followed by the static-region filter.  The
subsequent rewind call only normalizes ring winding for rendering and does
not change the feature set. -/
def admittedFeatures (raw : List Feature) : List Feature :=
  (raw.filter (fun f => !isExcludedFeature f)).filter featureHasStaticRegion

/-- Boundary recomputation effect (App.js lines 1476-1488): the loaded
features are filtered once more for static region allocations before the
mode-selected generator runs. -/
def regionBoundariesPipeline (raw : List Feature) (useDataDrivenRegions : Bool) :
    List BoundarySegment :=
  regionBoundariesFor useDataDrivenRegions ((admittedFeatures raw).filter featureHasStaticRegion)

/-! ## Metric-source registry (App.js lines 565-1310, 1873-1880, 2423-2437) -/

/-- Outcome of one raw dataset accessor call: the accessor may throw,
produce NaN, or produce a number.  Totalizing the wrapper over this type
models the catch-all of the HEIGHT_GETTERS wrapper: no exception escapes. -/
inductive RawOutcome where
  | throws
  | nan
  | value (q : ℚ)
deriving Repr, DecidableEq

/-- Validating wrapper installed around every enabled accessor (App.js
lines 1300-1308): a thrown error, NaN, or negative number becomes 0. -/
def safeGet (getter : Feature → RawOutcome) (f : Feature) : ℚ :=
  match getter f with
  | .throws => 0
  | .nan => 0
  | .value q => if q < 0 then 0 else q

/-- Entries of the AVAILABLE_DATASETS object literal in source order
(App.js lines 565-1292), keeping each entry's id, category, unit and
disabled flag.  Keys occurring twice in the literal are listed twice here;
the object construction below collapses them with JavaScript semantics
(first-occurrence position, last value wins). -/
def AVAILABLE_DATASETS_LITERAL : List (String × DatasetDescriptor) :=
  [("gdp", ⟨"gdp", "Built-in", "B$", false⟩),
   ("population", ⟨"population", "Built-in", "M", false⟩),
   ("area", ⟨"area", "Built-in", "K km²", false⟩),
   ("neighbors", ⟨"neighbors", "Built-in", "", false⟩),
   ("forest_area", ⟨"forest_area", "World Bank", "%", false⟩),
   ("co2_emissions", ⟨"co2_emissions", "World Bank", "t/capita", true⟩),
   ("urban_population", ⟨"urban_population", "World Bank", "%", false⟩),
   ("internet_users", ⟨"internet_users", "World Bank", "%", false⟩),
   ("education_expenditure", ⟨"education_expenditure", "World Bank", "% GDP", true⟩),
   ("renewable_electricity", ⟨"renewable_electricity", "World Bank", "%", true⟩),
   ("life_expectancy", ⟨"life_expectancy", "World Bank", "years", true⟩),
   ("gdp_growth", ⟨"gdp_growth", "World Bank", "%", true⟩),
   ("unemployment", ⟨"unemployment", "World Bank", "%", true⟩),
   ("exports_gdp", ⟨"exports_gdp", "World Bank", "% GDP", true⟩),
   ("military_expenditure", ⟨"military_expenditure", "World Bank", "% GDP", false⟩),
   ("population_density", ⟨"population_density", "Calculated", "people/km²", false⟩),
   ("gdp_per_capita", ⟨"gdp_per_capita", "Calculated", "USD", false⟩),
   ("economic_complexity", ⟨"economic_complexity", "Economic", "index", false⟩),
   ("digital_competitiveness", ⟨"digital_competitiveness", "Technology", "score", false⟩),
   ("energy_security", ⟨"energy_security", "Energy", "index", false⟩),
   ("corruption_index", ⟨"corruption_index", "Governance", "score", false⟩),
   ("innovation_index", ⟨"innovation_index", "Innovation", "score", false⟩),
   ("life_expectancy", ⟨"life_expectancy", "Our World in Data", "years", false⟩),
   ("internet_usage", ⟨"internet_usage", "Our World in Data", "%", false⟩),
   ("coffee_production", ⟨"coffee_production", "FAOSTAT", "tonnes", false⟩),
   ("crop_yield", ⟨"crop_yield", "FAOSTAT", "index", false⟩),
   ("road_density", ⟨"road_density", "World Bank", "km/100km²", false⟩),
   ("urbanization", ⟨"urbanization", "World Bank", "%", false⟩),
   ("industrial_production", ⟨"industrial_production", "UN Data", "index", false⟩),
   ("tourism_arrivals", ⟨"tourism_arrivals", "UN Data", "M", false⟩),
   ("oil_production", ⟨"oil_production", "Energy Institute", "bbl/day", false⟩),
   ("energy_consumption", ⟨"energy_consumption", "Energy Institute", "TWh", false⟩),
   ("gold_production", ⟨"gold_production", "USGS Minerals", "tonnes", false⟩),
   ("copper_reserves", ⟨"copper_reserves", "USGS Minerals", "Mt", false⟩),
   ("road_density", ⟨"road_density", "World Bank", "km/100km²", false⟩),
   ("urbanization", ⟨"urbanization", "World Bank", "%", false⟩),
   ("gdp_per_capita", ⟨"gdp_per_capita", "World Bank", "USD", false⟩),
   ("population_density", ⟨"population_density", "World Bank", "/km²", false⟩),
   ("military_expenditure", ⟨"military_expenditure", "World Bank", "% GDP", false⟩),
   ("healthcare_expenditure", ⟨"healthcare_expenditure", "World Bank", "% GDP", false⟩)]

/-- Effective registry: the object literal with JavaScript duplicate-key
semantics applied (in particular the later, enabled life_expectancy entry
replaces the earlier disabled one). -/
def AVAILABLE_DATASETS : List (String × DatasetDescriptor) :=
  AVAILABLE_DATASETS_LITERAL.foldl (fun acc p => objUpsert acc p.1 p.2) []

/-- Enabled height getters (App.js lines 1295-1310): the registry filtered
for enabled entries, each id paired with the validating wrapper around its
raw accessor.  The raw accessors read external data caches, modelled by
the parameter ext. -/
def HEIGHT_GETTERS (ext : String → Feature → RawOutcome) :
    List (String × (Feature → ℚ)) :=
  (AVAILABLE_DATASETS.filter (fun p => !p.2.disabled)).map
    (fun p => (p.1, safeGet (ext p.1)))

/-- Statistics entry point of the heightStats memo (App.js lines
1369-1380): the default object without features or with filter "none";
otherwise the getter looked up by the active filter id is mapped over the
features.  A filter id with no installed getter yields no statistics
object at all (none). -/
def heightStatsFor (ext : String → Feature → RawOutcome) (features : List Feature)
    (heightFilter : String) : Option HeightStatistics :=
  if features.length = 0 ∨ heightFilter = "none" then some defaultStats
  else ((HEIGHT_GETTERS ext).lookup heightFilter).map
    (fun g => computeStatistics (features.map g))

/-- Dataset selection handler (App.js lines 2423-2437): selecting a
disabled dataset is refused; otherwise the id is toggled in the selected
list. -/
def handleDatasetSelect (selected : List String) (datasetId : String) : List String :=
  let isDisabled :=
    match AVAILABLE_DATASETS.lookup datasetId with
    | some d => d.disabled
    | none => false
  if isDisabled then selected
  else if datasetId ∈ selected then selected.filter (fun i => i ≠ datasetId)
  else selected ++ [datasetId]

/-! ## Specification-side formulations used to state the claims -/

/-- Crusher condition exactly as the specification words it, with the
ratios taken literally over the sorted positive values: max/p95,
max/mean, max/median against 3, 8, 10, and the IQR threshold test. -/
def specCrusherLiteral (values : List ℚ) : Prop :=
  jsMaxList values / percentileOf values 95 > 3 ∨
  jsMaxList values / meanOf values > 8 ∨
  jsMaxList values / medianOf values > 10 ∨
  jsMaxList values > outlierThresholdOf values

instance (values : List ℚ) : Decidable (specCrusherLiteral values) := by
  unfold specCrusherLiteral
  infer_instance

/-- Crusher condition with each ratio denominator guarded by
`Math.max(denominator, 1)`, the amendment forced by the code. -/
def specCrusherGuarded (values : List ℚ) : Prop :=
  jsMaxList values / max (percentileOf values 95) 1 > 3 ∨
  jsMaxList values / max (meanOf values) 1 > 8 ∨
  jsMaxList values / max (medianOf values) 1 > 10 ∨
  jsMaxList values > outlierThresholdOf values

instance (values : List ℚ) : Decidable (specCrusherGuarded values) := by
  unfold specCrusherGuarded
  infer_instance

/-- Slug exactly as the specification words it: lower-cased with every
non-alphanumeric run collapsed to one underscore. -/
def claimSlugify (s : String) : String :=
  String.mk (collapseRuns (fun c => !c.isAlphanum) false (s.data.map Char.toLower))

/-- Derived-mode key as claimed (non-alphanumeric runs collapsed). -/
def claimDerivedRegionKey (continent subregion : String) : String :=
  if continent ∈ (["Europe", "Africa", "Asia", "Oceania"] : List String) then
    claimSlugify (continent ++ "_" ++ subregion)
  else if continent = "North America" then
    (if subregion = "Northern America" then "north_america" else "central_america_caribbean")
  else if continent = "South America" then "south_america"
  else claimSlugify continent

/-- Derived-mode key as amended: only whitespace-and-ampersand runs are
collapsed, matching the regex `/[\s&]+/g` of the code. -/
def amendedDerivedRegionKey (continent subregion : String) : String :=
  if continent ∈ (["Europe", "Africa", "Asia", "Oceania"] : List String) then
    slugify (continent ++ "_" ++ subregion)
  else if continent = "North America" then
    (if subregion = "Northern America" then "north_america" else "central_america_caribbean")
  else if continent = "South America" then "south_america"
  else slugify continent

/-- Greedy nearest-neighbor chain as the specification describes the
polyline ordering: from the current chain end, some remaining point of
minimum distance is appended and removed from the remaining multiset,
until none remain.  Comparing squared distances orders points exactly as
comparing Euclidean distances. -/
inductive IsGreedyChain : Coord → List Coord → List Coord → Prop where
  | nil (last : Coord) : IsGreedyChain last [] []
  | cons (last q : Coord) (remaining rest out : List Coord)
      (hmem : q ∈ remaining)
      (hmin : ∀ y ∈ remaining, sqDist last q ≤ sqDist last y)
      (hperm : remaining.Perm (q :: rest))
      (hrec : IsGreedyChain q rest out) :
      IsGreedyChain last remaining (q :: out)

/-! ## Concrete inputs used by the witnesses -/

/-- Square ring east of the shared edge. -/
def demoRingA : List Coord := [(0, 0), (0, 1), (1, 1), (1, 0)]

/-- Square ring west of the shared edge, sharing exactly the two points
(0,0) and (0,1) with demoRingA. -/
def demoRingB : List Coord := [(0, 0), (0, 1), (-1, 1), (-1, 0)]

/-- Ring sharing exactly one point with demoRingA. -/
def demoRingC : List Coord := [(0, 0), (-2, 3), (-3, 4), (-4, 5)]

/-- United States feature: static region north_america, derived region
north_america. -/
def demoFeatureUS : Feature :=
  { props := { ISO_A2 := some "US", ADMIN := some "United States of America",
               NAME := some "United States", CONTINENT := some "North America",
               SUBREGION := some "Northern America", REGION_UN := some "Americas" },
    geometry := .polygon [demoRingA] }

/-- Guatemala feature: static region central_america_caribbean, derived
region central_america_caribbean, ring adjacent to the US ring. -/
def demoFeatureGT : Feature :=
  { props := { ISO_A2 := some "GT", ADMIN := some "Guatemala",
               NAME := some "Guatemala", CONTINENT := some "North America",
               SUBREGION := some "Central America", REGION_UN := some "Americas" },
    geometry := .polygon [demoRingB] }

/-- Mexico feature whose ring shares only one point with the US ring. -/
def demoFeatureMX : Feature :=
  { props := { ISO_A2 := some "MX", ADMIN := some "Mexico",
               NAME := some "Mexico", CONTINENT := some "North America",
               SUBREGION := some "Central America", REGION_UN := some "Americas" },
    geometry := .polygon [demoRingC] }

/-- Segment produced for the US/GT pair in data-driven mode. -/
def demoSegment : BoundarySegment :=
  { coordinates := [(0, 0), (0, 1)], region1 := "north_america",
    region2 := "central_america_caribbean", country1 := some "US",
    country2 := some "GT", segType := "data_driven_boundary", id := 0 }

/-! ## Helper lemmas about the value array -/

theorem foldl_max_init_le (t : List ℚ) (a : ℚ) : a ≤ t.foldl max a := by
  induction t generalizing a with
  | nil => exact le_refl a
  | cons h tl ih => exact le_trans (le_max_left a h) (ih (max a h))

theorem foldl_max_le_of_mem {v : ℚ} {t : List ℚ} (a : ℚ) (hv : v ∈ t) :
    v ≤ t.foldl max a := by
  induction t generalizing a with
  | nil => cases hv
  | cons h tl ih =>
    rcases List.mem_cons.mp hv with rfl | hmem
    · exact le_trans (le_max_right a v) (foldl_max_init_le tl (max a v))
    · exact ih (max a h) hmem

theorem le_jsMaxList {v : ℚ} {l : List ℚ} (hv : v ∈ l) : v ≤ jsMaxList l := by
  cases l with
  | nil => cases hv
  | cons h t =>
    rcases List.mem_cons.mp hv with rfl | hmem
    · exact foldl_max_init_le t v
    · exact foldl_max_le_of_mem h hmem

theorem foldl_max_mem_or (t : List ℚ) (a : ℚ) : t.foldl max a = a ∨ t.foldl max a ∈ t := by
  induction t generalizing a with
  | nil => exact Or.inl rfl
  | cons h tl ih =>
    rcases ih (max a h) with heq | hmem
    · rcases max_choice a h with hc | hc
      · exact Or.inl (heq.trans hc)
      · rw [List.foldl_cons, heq, hc]; exact Or.inr (List.mem_cons_self h tl)
    · exact Or.inr (List.mem_cons_of_mem h hmem)

theorem jsMaxList_mem {l : List ℚ} (h : l ≠ []) : jsMaxList l ∈ l := by
  cases l with
  | nil => exact absurd rfl h
  | cons a t =>
    rcases foldl_max_mem_or t a with heq | hmem
    · rw [jsMaxList, heq]; exact List.mem_cons_self a t
    · exact List.mem_cons_of_mem a hmem

theorem foldl_min_init_le (t : List ℚ) (a : ℚ) : t.foldl min a ≤ a := by
  induction t generalizing a with
  | nil => exact le_refl a
  | cons h tl ih => exact le_trans (ih (min a h)) (min_le_left a h)

theorem foldl_min_le_of_mem {v : ℚ} {t : List ℚ} (a : ℚ) (hv : v ∈ t) :
    t.foldl min a ≤ v := by
  induction t generalizing a with
  | nil => cases hv
  | cons h tl ih =>
    rcases List.mem_cons.mp hv with rfl | hmem
    · exact le_trans (foldl_min_init_le tl (min a v)) (min_le_right a v)
    · exact ih (min a h) hmem

theorem jsMinList_le {v : ℚ} {l : List ℚ} (hv : v ∈ l) : jsMinList l ≤ v := by
  cases l with
  | nil => cases hv
  | cons h t =>
    rcases List.mem_cons.mp hv with rfl | hmem
    · exact foldl_min_init_le t v
    · exact foldl_min_le_of_mem h hmem

theorem mem_sortedPositiveValues_pos {v : ℚ} {raw : List ℚ}
    (hv : v ∈ sortedPositiveValues raw) : 0 < v := by
  have hperm := List.perm_insertionSort (α := ℚ) (· ≤ ·) (raw.filter (fun v => 0 < v))
  have hmem : v ∈ raw.filter (fun v => 0 < v) := hperm.mem_iff.mp hv
  have := List.of_mem_filter hmem
  exact of_decide_eq_true this

theorem jsMaxList_pos {raw : List ℚ} (h : sortedPositiveValues raw ≠ []) :
    0 < jsMaxList (sortedPositiveValues raw) :=
  mem_sortedPositiveValues_pos (jsMaxList_mem h)

theorem computeStatistics_values (raw : List ℚ) :
    (computeStatistics raw).values = sortedPositiveValues raw := by
  unfold computeStatistics statsOfSorted
  by_cases h : sortedPositiveValues raw = []
  · simp [h, defaultStats]
  · simp only [if_neg h]
    split <;> rfl

theorem computeStatistics_max (raw : List ℚ) (h : sortedPositiveValues raw ≠ []) :
    (computeStatistics raw).max = jsMaxList (sortedPositiveValues raw) := by
  unfold computeStatistics statsOfSorted
  simp only [if_neg h]
  split <;> rfl

theorem computeStatistics_min (raw : List ℚ) (h : sortedPositiveValues raw ≠ []) :
    (computeStatistics raw).min = jsMinList (sortedPositiveValues raw) := by
  unfold computeStatistics statsOfSorted
  simp only [if_neg h]
  split <;> rfl

/-! ## Claim theorems -/

/-- C1, counterexample: on the positive values
[0.5, 0.5, 0.5, 0.5, 0.5, 1, 5, 6] the claimed literal ratio test fires
(max/median = 12 > 10) while the code does not flag a crusher, because the
code divides by Math.max(median, 1) = 1 instead of by the median. -/
theorem c1_counterexample :
    specCrusherLiteral (sortedPositiveValues [1/2, 1/2, 1/2, 1/2, 1/2, 1, 5, 6]) ∧
    isExtremeCrusher (sortedPositiveValues [1/2, 1/2, 1/2, 1/2, 1/2, 1, 5, 6]) = false := by
  decide

/-- C1 (amended): for every dataset whose positive values are non-empty,
the code flags an outlier-crusher if and only if, over the
ascending-sorted positive values, max / max(p95, 1) > 3.0, or
max / max(mean, 1) > 8.0, or max / max(median, 1) > 10.0, or
max > Q3 + 2.5 (Q3 - Q1), with Q1, Q3, p95 the elements at the 25th, 75th
and 95th percentile indices of the sorted array. -/
theorem c1_crusher_iff_guarded (raw : List ℚ) (_h : sortedPositiveValues raw ≠ []) :
    isExtremeCrusher (sortedPositiveValues raw) = true ↔
      specCrusherGuarded (sortedPositiveValues raw) := by
  simp only [isExtremeCrusher, specCrusherGuarded]
  split
  next hcond => simpa using hcond
  next hcond => simpa using hcond

/-- Witness for c1_crusher_iff_guarded at the value list [1, 2, 3]. -/
theorem c1_crusher_iff_guarded_witness :
    isExtremeCrusher (sortedPositiveValues [1, 2, 3]) = true ↔
      specCrusherGuarded (sortedPositiveValues [1, 2, 3]) :=
  c1_crusher_iff_guarded [1, 2, 3] (by decide)

/-- C2: whenever the crusher condition holds, adjustedMax is
max(p95·1.5, mean·3, median·4) clamped into [0.3·max, 0.8·max], hence
lies between 0.3·max and 0.8·max; otherwise adjustedMax = max and the
outlier set is empty. -/
theorem c2_adjustedMax_clamped (raw : List ℚ) (h : sortedPositiveValues raw ≠ []) :
    (isExtremeCrusher (sortedPositiveValues raw) = true →
        (computeStatistics raw).adjustedMax =
          min (max (max (max (percentileOf (sortedPositiveValues raw) 95 * (3/2))
                             (meanOf (sortedPositiveValues raw) * 3))
                        (medianOf (sortedPositiveValues raw) * 4))
                   (jsMaxList (sortedPositiveValues raw) * (3/10)))
              (jsMaxList (sortedPositiveValues raw) * (4/5)) ∧
        (computeStatistics raw).max * (3/10) ≤ (computeStatistics raw).adjustedMax ∧
        (computeStatistics raw).adjustedMax ≤ (computeStatistics raw).max * (4/5)) ∧
    (isExtremeCrusher (sortedPositiveValues raw) = false →
        (computeStatistics raw).adjustedMax = (computeStatistics raw).max ∧
        (computeStatistics raw).outliers = []) := by
  have hmaxpos : 0 < jsMaxList (sortedPositiveValues raw) := jsMaxList_pos h
  constructor
  · intro hc
    have hstats : (computeStatistics raw).adjustedMax =
        min (max (max (max (percentileOf (sortedPositiveValues raw) 95 * (3/2))
                           (meanOf (sortedPositiveValues raw) * 3))
                      (medianOf (sortedPositiveValues raw) * 4))
                 (jsMaxList (sortedPositiveValues raw) * (3/10)))
            (jsMaxList (sortedPositiveValues raw) * (4/5)) := by
      unfold computeStatistics statsOfSorted
      rw [if_neg h, if_pos hc]
    refine ⟨hstats, ?_, ?_⟩
    · rw [hstats, computeStatistics_max raw h]
      exact le_min (le_max_right _ _) (by nlinarith)
    · rw [hstats, computeStatistics_max raw h]
      exact min_le_right _ _
  · intro hc
    have hrec : computeStatistics raw =
        { max := jsMaxList (sortedPositiveValues raw)
          min := jsMinList (sortedPositiveValues raw)
          mean := meanOf (sortedPositiveValues raw)
          median := medianOf (sortedPositiveValues raw)
          values := sortedPositiveValues raw
          adjustedMax := jsMaxList (sortedPositiveValues raw)
          outliers := [] } := by
      unfold computeStatistics statsOfSorted
      rw [if_neg h, if_neg (by simp [hc])]
    rw [hrec]
    exact ⟨rfl, rfl⟩

/-- Witness for c2_adjustedMax_clamped at the crusher list [1, 1, 1, 1, 100]. -/
theorem c2_adjustedMax_clamped_witness :
    (computeStatistics [1, 1, 1, 1, 100]).max * (3/10) ≤
      (computeStatistics [1, 1, 1, 1, 100]).adjustedMax ∧
    (computeStatistics [1, 1, 1, 1, 100]).adjustedMax ≤
      (computeStatistics [1, 1, 1, 1, 100]).max * (4/5) := by
  have hc := c2_adjustedMax_clamped [1, 1, 1, 1, 100] (by decide)
  exact ⟨(hc.1 (by decide)).2.1, (hc.1 (by decide)).2.2⟩

/-- C3, counterexample: with exactly the two positive values 100 and
100,000,000 (in either order) the crusher condition does not trigger and
the outlier set is empty, contradicting the claimed scenario; the larger
value's normalized height is exactly 1, not above 1. -/
theorem c3_counterexample :
    isExtremeCrusher (sortedPositiveValues [100, 100000000]) = false ∧
    isExtremeCrusher (sortedPositiveValues [100000000, 100]) = false ∧
    (computeStatistics [100, 100000000]).outliers = [] ∧
    (computeStatistics [100000000, 100]).outliers = [] ∧
    normalizedValue (computeStatistics [100, 100000000]) 100000000 = 1 := by
  decide

/-- C3 (amended): for every input of exactly two features with positive
values 100 and 100,000,000 under one active dataset, the crusher condition
does not trigger, the outlier set is empty, adjustedMax stays max, the
larger value's normalized height is exactly 1.0 and the smaller value's
normalized height is 0. -/
theorem c3_hundred_vs_hundred_million (raw : List ℚ) (h : raw.Perm [100, 100000000]) :
    isExtremeCrusher (sortedPositiveValues raw) = false ∧
    (computeStatistics raw).outliers = [] ∧
    (computeStatistics raw).adjustedMax = (computeStatistics raw).max ∧
    normalizedValue (computeStatistics raw) 100000000 = 1 ∧
    normalizedValue (computeStatistics raw) 100 = 0 := by
  have hfilter : List.Perm (raw.filter (fun v => decide (0 < v))) [100, 100000000] := by
    have hf := h.filter (fun v => decide (0 < v))
    simpa using hf
  have hsorted : sortedPositiveValues raw = [100, 100000000] := by
    have hperm : List.Perm (sortedPositiveValues raw) [100, 100000000] := by
      unfold sortedPositiveValues
      exact (List.perm_insertionSort _ _).trans hfilter
    have hs1 : List.Sorted (fun a b : ℚ => a ≤ b) (sortedPositiveValues raw) := by
      unfold sortedPositiveValues
      exact List.sorted_insertionSort _ _
    have hs2 : List.Sorted (fun a b : ℚ => a ≤ b) [100, 100000000] := by decide
    exact List.eq_of_perm_of_sorted hperm hs1 hs2
  have hstats : computeStatistics raw = statsOfSorted [100, 100000000] := by
    unfold computeStatistics
    rw [hsorted]
  rw [hstats, hsorted]
  decide

/-- Witness for c3_hundred_vs_hundred_million at the list [100, 100000000]. -/
theorem c3_hundred_vs_hundred_million_witness :
    isExtremeCrusher (sortedPositiveValues [100, 100000000]) = false ∧
    normalizedValue (computeStatistics [100, 100000000]) 100 = 0 := by
  have hc := c3_hundred_vs_hundred_million [100, 100000000] (List.Perm.refl _)
  exact ⟨hc.1, hc.2.2.2.2⟩

/-- Clamping phase 4 bounds the adaptive exponent strictly above 0
(at least 1.1 in expansive mode, at least 0.3 in compressive mode). -/
theorem clampExponent_pos (e5 : ℝ) : 0 < clampExponent e5 := by
  unfold clampExponent
  split
  · have h11 : (1.1 : ℝ) ≤ max 1.1 (min 3.5 e5) := le_max_left _ _
    linarith [h11]
  · have h03 : (0.3 : ℝ) ≤ max 0.3 (min 0.95 e5) := le_max_left _ _
    linarith [h03]

/-- Clamping phase 4 keeps the adaptive exponent strictly positive. -/
theorem adaptiveExponent_pos (stats : HeightStatistics) : 0 < adaptiveExponent stats :=
  clampExponent_pos (adaptiveExponentRaw stats)

/-- Phase-6 smoothing maps [0, 1] into itself: the expansive branch sends
(0.9, 1] into (0.9, 0.985], the compressive branch sends [0, 0.1) into
[0, 0.15), and otherwise the value is unchanged. -/
theorem smoothScaled_mem_unit (e n1 : ℝ) (h0 : 0 ≤ n1) (h1 : n1 ≤ 1) :
    0 ≤ smoothScaled e n1 ∧ smoothScaled e n1 ≤ 1 := by
  unfold smoothScaled
  split
  · next hcond =>
    have hgt := hcond.2
    have hring : (0.9 : ℝ) + ((n1 - 0.9) / 0.1) * 0.1 * 0.85 =
        0.9 + (n1 - 0.9) * 0.85 := by ring
    rw [hring]
    constructor <;> nlinarith [hgt, h1]
  · split
    · next hcond =>
      have hlt := hcond.2
      have hring : (n1 / 0.1) * 0.15 = n1 * 1.5 := by ring
      rw [hring]
      constructor <;> nlinarith [hlt, h0]
    · exact ⟨h0, h1⟩

/-- Every scaling branch maps a normalized value in [0, 1] back into
[0, 1]: the built-in branches are the identity or a power with positive
exponent, and the adaptive branch composes such a power with the phase-6
smoothing, which fixes the interval. -/
theorem scaleNormalized_mem_unit (heightFilter : String) (stats : HeightStatistics)
    (nb : ℚ) (h0 : 0 ≤ nb) (h1 : nb ≤ 1) :
    0 ≤ scaleNormalized heightFilter stats nb ∧ scaleNormalized heightFilter stats nb ≤ 1 := by
  have h0R : (0 : ℝ) ≤ (nb : ℝ) := by exact_mod_cast h0
  have h1R : ((nb : ℝ)) ≤ 1 := by exact_mod_cast h1
  have hep : 0 < adaptiveExponent stats := adaptiveExponent_pos stats
  have hn10 : 0 ≤ (nb : ℝ) ^ adaptiveExponent stats := Real.rpow_nonneg h0R _
  have hn11 : (nb : ℝ) ^ adaptiveExponent stats ≤ 1 :=
    Real.rpow_le_one h0R h1R (le_of_lt hep)
  unfold scaleNormalized
  split
  · split
    · exact ⟨h0R, h1R⟩
    · split
      · exact ⟨Real.rpow_nonneg h0R _, Real.rpow_le_one h0R h1R (by norm_num)⟩
      · split
        · exact ⟨Real.rpow_nonneg h0R _, Real.rpow_le_one h0R h1R (by norm_num)⟩
        · exact ⟨h0R, h1R⟩
  · exact smoothScaled_mem_unit (adaptiveExponent stats) _ hn10 hn11

/-- Height multiplier constants are nonnegative. -/
theorem heightMultiplier_nonneg (heightFilter : String) (dataset : Option DatasetDescriptor) :
    0 ≤ heightMultiplier heightFilter dataset := by
  unfold heightMultiplier
  split
  · norm_num
  · split
    · norm_num
    · split <;> norm_num

/-- Pre-scaling normalized value of a non-outlier lies in [0, 1] whenever
the value is at least the minimum and the adjusted maximum exceeds the
minimum. -/
theorem normalizedValue_nonoutlier_mem_unit (stats : HeightStatistics) (value : ℚ)
    (hnot : value ∉ stats.outliers) (hmin : stats.min ≤ value)
    (hadj : stats.min < stats.adjustedMax) :
    0 ≤ normalizedValue stats value ∧ normalizedValue stats value ≤ 1 := by
  unfold normalizedValue
  rw [if_neg (fun hcontra => hnot hcontra.1)]
  refine ⟨le_min zero_le_one (div_nonneg (by linarith) (by linarith)), min_le_left _ _⟩

/-- C4 (amended): for every feature whose dataset value is positive,
belongs to the computed value array, and is not in the outlier set, with
max > min and additionally min < adjustedMax, the pre-hover height lies
within [baseHeight, baseHeight + heightMultiplier], where the multiplier
is the fixed per-category constant (0.3 built-in, 0.25 percentage-unit,
0.28 resource-category, 0.25 otherwise). -/
theorem c4_nonoutlier_height_bounds (heightFilter : String)
    (dataset : Option DatasetDescriptor) (raw : List ℚ) (value : ℚ)
    (hmem : value ∈ (computeStatistics raw).values)
    (hnot : value ∉ (computeStatistics raw).outliers)
    (hrange : (computeStatistics raw).min < (computeStatistics raw).max)
    (hadj : (computeStatistics raw).min < (computeStatistics raw).adjustedMax) :
    (baseHeight : ℝ) ≤ computeHeight heightFilter dataset (computeStatistics raw) value ∧
    computeHeight heightFilter dataset (computeStatistics raw) value ≤
      (baseHeight : ℝ) + ((heightMultiplier heightFilter dataset : ℚ) : ℝ) := by
  have hvals : (computeStatistics raw).values = sortedPositiveValues raw :=
    computeStatistics_values raw
  have hmem' : value ∈ sortedPositiveValues raw := hvals ▸ hmem
  have hpos : 0 < value := mem_sortedPositiveValues_pos hmem'
  have hne : sortedPositiveValues raw ≠ [] := by
    intro hnil
    rw [hnil] at hmem'
    exact List.not_mem_nil value hmem'
  have hminle : (computeStatistics raw).min ≤ value := by
    rw [computeStatistics_min raw hne]
    exact jsMinList_le hmem'
  have hnb := normalizedValue_nonoutlier_mem_unit (computeStatistics raw) value hnot hminle hadj
  have hscale := scaleNormalized_mem_unit heightFilter (computeStatistics raw)
    (normalizedValue (computeStatistics raw) value) hnb.1 hnb.2
  have hmultQ : (0 : ℚ) ≤ heightMultiplier heightFilter dataset :=
    heightMultiplier_nonneg heightFilter dataset
  have hmultR : (0 : ℝ) ≤ ((heightMultiplier heightFilter dataset : ℚ) : ℝ) := by
    exact_mod_cast hmultQ
  unfold computeHeight
  rw [if_pos ⟨hpos, hrange⟩]
  rw [if_neg (fun hc => hnot hc.1)]
  constructor
  · have hterm : 0 ≤ scaleNormalized heightFilter (computeStatistics raw)
        (normalizedValue (computeStatistics raw) value) *
        ((heightMultiplier heightFilter dataset : ℚ) : ℝ) :=
      mul_nonneg hscale.1 hmultR
    linarith
  · have hterm : scaleNormalized heightFilter (computeStatistics raw)
        (normalizedValue (computeStatistics raw) value) *
        ((heightMultiplier heightFilter dataset : ℚ) : ℝ) ≤
        1 * ((heightMultiplier heightFilter dataset : ℚ) : ℝ) :=
      mul_le_mul_of_nonneg_right hscale.2 hmultR
    linarith

/-- Witness for c4_nonoutlier_height_bounds: dataset gdp over the values
[1, 2, 3, 4] at value 2. -/
theorem c4_nonoutlier_height_bounds_witness :
    (baseHeight : ℝ) ≤ computeHeight "gdp" none (computeStatistics [1, 2, 3, 4]) 2 ∧
    computeHeight "gdp" none (computeStatistics [1, 2, 3, 4]) 2 ≤
      (baseHeight : ℝ) + ((heightMultiplier "gdp" none : ℚ) : ℝ) :=
  c4_nonoutlier_height_bounds "gdp" none [1, 2, 3, 4] 2
    (by decide) (by decide) (by decide) (by decide)

/-- C4, counterexample: over the positive values [9, 9.5, 9.5, 9.5, 10]
the crusher clamping drives adjustedMax to 8, below the minimum 9, so the
non-outlier value 9.5 normalizes to -0.5 and the gdp height drops below
baseHeight, outside the claimed interval. -/
theorem c4_counterexample :
    (19/2 : ℚ) ∈ (computeStatistics [9, 19/2, 19/2, 19/2, 10]).values ∧
    (19/2 : ℚ) ∉ (computeStatistics [9, 19/2, 19/2, 19/2, 10]).outliers ∧
    (computeStatistics [9, 19/2, 19/2, 19/2, 10]).min <
      (computeStatistics [9, 19/2, 19/2, 19/2, 10]).max ∧
    computeHeight "gdp" none (computeStatistics [9, 19/2, 19/2, 19/2, 10]) (19/2) <
      (baseHeight : ℝ) := by
  refine ⟨by decide, by decide, by decide, ?_⟩
  have hnv : normalizedValue (computeStatistics [9, 19/2, 19/2, 19/2, 10]) (19/2) =
      -(1/2) := by decide
  have hscale : scaleNormalized "gdp" (computeStatistics [9, 19/2, 19/2, 19/2, 10])
      (normalizedValue (computeStatistics [9, 19/2, 19/2, 19/2, 10]) (19/2)) =
      ((-(1/2) : ℚ) : ℝ) := by
    unfold scaleNormalized
    rw [if_pos (by decide : "gdp" ∈ BUILT_IN_IDS)]
    rw [if_pos rfl, hnv]
  have hmult : heightMultiplier "gdp" none = 3/10 := by decide
  unfold computeHeight
  rw [if_pos ⟨by decide, by decide⟩]
  rw [if_neg (fun hc => absurd hc.1 (by decide))]
  rw [hscale, hmult]
  push_cast
  norm_num [baseHeight]

/-- C6, counterexample: for continent "Asia" and subregion
"South-Eastern Asia" the code keeps the hyphen (only whitespace and
ampersand runs are collapsed), while the claimed rule would collapse every
non-alphanumeric run. -/
theorem c6_counterexample :
    derivedRegionKey "Asia" "South-Eastern Asia" = "asia_south-eastern_asia" ∧
    claimDerivedRegionKey "Asia" "South-Eastern Asia" = "asia_south_eastern_asia" ∧
    derivedRegionKey "Asia" "South-Eastern Asia" ≠
      claimDerivedRegionKey "Asia" "South-Eastern Asia" := by
  decide

theorem slugify_append_congr (a b s : String)
    (hab : a.data.map Char.toLower = b.data.map Char.toLower) :
    slugify (a ++ s) = slugify (b ++ s) := by
  unfold slugify
  rw [String.data_append, String.data_append, List.map_append, List.map_append, hab]

/-- C6 (amended): derived-mode classification returns, for continents
Europe, Africa, Asia and Oceania, the key "<continent>_<subregion>"
lower-cased with whitespace-and-ampersand runs collapsed to "_"; for North
America "north_america" when the subregion is "Northern America" and
"central_america_caribbean" otherwise; for South America "south_america";
and for any other continent the same slug of the continent name alone. -/
theorem c6_derived_classification (continent subregion : String) :
    derivedRegionKey continent subregion = amendedDerivedRegionKey continent subregion := by
  by_cases h1 : continent = "Europe"
  · subst h1
    show slugify ("europe_" ++ subregion) = slugify ("Europe" ++ "_" ++ subregion)
    exact slugify_append_congr "europe_" ("Europe" ++ "_") subregion (by decide)
  · by_cases h2 : continent = "Africa"
    · subst h2
      show slugify ("africa_" ++ subregion) = slugify ("Africa" ++ "_" ++ subregion)
      exact slugify_append_congr "africa_" ("Africa" ++ "_") subregion (by decide)
    · by_cases h3 : continent = "Asia"
      · subst h3
        show slugify ("asia_" ++ subregion) = slugify ("Asia" ++ "_" ++ subregion)
        exact slugify_append_congr "asia_" ("Asia" ++ "_") subregion (by decide)
      · by_cases h4 : continent = "North America"
        · subst h4
          show (if subregion = "Northern America" then "north_america"
              else "central_america_caribbean") =
            (if subregion = "Northern America" then "north_america"
              else "central_america_caribbean")
          rfl
        · by_cases h5 : continent = "South America"
          · subst h5
            rfl
          · by_cases h6 : continent = "Oceania"
            · subst h6
              show slugify ("oceania_" ++ subregion) = slugify ("Oceania" ++ "_" ++ subregion)
              exact slugify_append_congr "oceania_" ("Oceania" ++ "_") subregion (by decide)
            · have hmem : continent ∉ (["Europe", "Africa", "Asia", "Oceania"] : List String) := by
                simp [h1, h2, h3, h6]
              unfold derivedRegionKey amendedDerivedRegionKey
              simp only [if_neg h1, if_neg h2, if_neg h3, if_neg h4, if_neg h5, if_neg h6,
                if_neg hmem]

/-- C7: whenever the raw accessor throws, returns NaN, or returns a
negative number, the installed wrapper substitutes 0; being a total
function into the rationals, it never propagates the failure. -/
theorem c7_bad_accessor_yields_zero (getter : Feature → RawOutcome) (f : Feature)
    (h : getter f = RawOutcome.throws ∨ getter f = RawOutcome.nan ∨
         ∃ q, getter f = RawOutcome.value q ∧ q < 0) :
    safeGet getter f = 0 := by
  unfold safeGet
  rcases h with h1 | h1 | ⟨q, h1, hq⟩
  · rw [h1]
  · rw [h1]
  · rw [h1]
    exact if_pos hq

/-- Witness for c7_bad_accessor_yields_zero with a throwing accessor. -/
theorem c7_bad_accessor_yields_zero_witness :
    safeGet (fun _ => RawOutcome.throws) demoFeatureUS = 0 :=
  c7_bad_accessor_yields_zero (fun _ => RawOutcome.throws) demoFeatureUS (Or.inl rfl)

theorem lookup_eq_some_of_mem_nodup {β : Type} (l : List (String × β)) (p : String × β)
    (hmem : p ∈ l) (hnd : (l.map Prod.fst).Nodup) : l.lookup p.1 = some p.2 := by
  induction l with
  | nil => cases hmem
  | cons q rest ih =>
    rcases List.mem_cons.mp hmem with rfl | hmem'
    · exact List.lookup_cons_self
    · have hne : p.1 ≠ q.1 := by
        intro he
        have hq : q.1 ∈ rest.map Prod.fst := he ▸ List.mem_map_of_mem Prod.fst hmem'
        exact (List.nodup_cons.mp hnd).1 hq
      have hbeq : (p.1 == q.1) = false := beq_eq_false_iff_ne.mpr hne
      cases q with
      | mk qk qv =>
        rw [List.lookup_cons, hbeq]
        exact ih hmem' (List.nodup_cons.mp hnd).2

/-- C8: a registry entry marked disabled is never installed as a height
getter, selecting it is refused, and statistics computed through its id
are never built from any dataset values (without features the guarded
default object is returned, otherwise no statistics object exists). -/
theorem c8_disabled_never_contributes (p : String × DatasetDescriptor)
    (hmem : p ∈ AVAILABLE_DATASETS) (hdis : p.2.disabled = true) :
    (∀ ext, (HEIGHT_GETTERS ext).lookup p.1 = none) ∧
    (∀ ext (features : List Feature),
        heightStatsFor ext features p.1 =
          if features.length = 0 then some defaultStats else none) ∧
    (∀ selected, handleDatasetSelect selected p.1 = selected) := by
  have hnd : (AVAILABLE_DATASETS.map Prod.fst).Nodup := by decide
  have hkeys : ∀ ext : String → Feature → RawOutcome,
      ∀ q ∈ HEIGHT_GETTERS ext, p.1 ≠ q.1 := by
    intro ext q hq
    unfold HEIGHT_GETTERS at hq
    rcases List.mem_map.mp hq with ⟨r, hr, hqr⟩
    have hrmem : r ∈ AVAILABLE_DATASETS := List.mem_of_mem_filter hr
    have hrdis : r.2.disabled = false := by
      have := List.of_mem_filter hr
      simpa using this
    intro hpq
    have hfst : p.1 = r.1 := by rw [hpq, ← hqr]
    have hpr : p = r := List.inj_on_of_nodup_map hnd hmem hrmem hfst
    rw [hpr, hrdis] at hdis
    cases hdis
  have hlookup : ∀ ext, (HEIGHT_GETTERS ext).lookup p.1 = none := by
    intro ext
    rw [List.lookup_eq_none_iff]
    intro q hq
    simpa using hkeys ext q hq
  refine ⟨hlookup, fun ext features => ?_, fun selected => ?_⟩
  · unfold heightStatsFor
    by_cases hf : features.length = 0
    · rw [if_pos (Or.inl hf), if_pos hf]
    · have hnone : p.1 ≠ "none" := by
        intro he
        have hmemnone : ("none" : String) ∈ AVAILABLE_DATASETS.map Prod.fst :=
          he ▸ List.mem_map_of_mem Prod.fst hmem
        exact absurd hmemnone (by decide)
      rw [if_neg (by tauto), if_neg hf, hlookup ext]
      rfl
  · have hl : AVAILABLE_DATASETS.lookup p.1 = some p.2 :=
      lookup_eq_some_of_mem_nodup _ _ hmem hnd
    unfold handleDatasetSelect
    rw [hl]
    simp [hdis]

/-- Witness for c8_disabled_never_contributes at the disabled
co2_emissions entry. -/
theorem c8_disabled_never_contributes_witness :
    (∀ ext, (HEIGHT_GETTERS ext).lookup "co2_emissions" = none) ∧
    (∀ ext (features : List Feature),
        heightStatsFor ext features "co2_emissions" =
          if features.length = 0 then some defaultStats else none) ∧
    (∀ selected, handleDatasetSelect selected "co2_emissions" = selected) :=
  c8_disabled_never_contributes
    ("co2_emissions", ⟨"co2_emissions", "World Bank", "t/capita", true⟩)
    (by decide) rfl

/-! ## Lemmas about boundary extraction -/

theorem pickNearest_fst_mem (last : Coord) (l : List Coord) (h : l ≠ []) :
    (pickNearest last l).1 ∈ l := by
  induction l with
  | nil => exact absurd rfl h
  | cons p rest ih =>
    cases rest with
    | nil => simp [pickNearest]
    | cons q rs =>
      simp only [pickNearest]
      rw [apply_ite Prod.fst]
      split
      · exact List.mem_cons_of_mem p (ih (by simp))
      · exact List.mem_cons_self _ _

theorem pickNearest_min (last : Coord) (l : List Coord) (y : Coord) (hy : y ∈ l) :
    sqDist last (pickNearest last l).1 ≤ sqDist last y := by
  induction l with
  | nil => cases hy
  | cons p rest ih =>
    cases rest with
    | nil =>
      rcases List.mem_cons.mp hy with rfl | hmem
      · simp [pickNearest]
      · cases hmem
    | cons q rs =>
      simp only [pickNearest]
      rw [apply_ite Prod.fst]
      split
      · next hlt =>
        rcases List.mem_cons.mp hy with rfl | hmem
        · exact le_of_lt hlt
        · exact ih hmem
      · next hnlt =>
        rcases List.mem_cons.mp hy with rfl | hmem
        · exact le_refl _
        · exact le_trans (not_lt.mp hnlt) (ih hmem)

theorem pickNearest_perm (last : Coord) (l : List Coord) (h : l ≠ []) :
    l.Perm ((pickNearest last l).1 :: (pickNearest last l).2) := by
  induction l with
  | nil => exact absurd rfl h
  | cons p rest ih =>
    cases rest with
    | nil => simp [pickNearest]
    | cons q rs =>
      simp only [pickNearest]
      rw [apply_ite Prod.fst, apply_ite Prod.snd]
      split
      · have hperm := ih (by simp)
        exact (hperm.cons p).trans (List.Perm.swap _ _ _)
      · exact List.Perm.refl _

theorem chainPoints_greedy (fuel : ℕ) : ∀ (last : Coord) (remaining : List Coord),
    remaining.length ≤ fuel →
    IsGreedyChain last remaining (chainPoints fuel last remaining) := by
  induction fuel with
  | zero =>
    intro last remaining h
    have hnil : remaining = [] := List.length_eq_zero.mp (Nat.le_zero.mp h)
    subst hnil
    exact IsGreedyChain.nil last
  | succ n ih =>
    intro last remaining h
    cases remaining with
    | nil => exact IsGreedyChain.nil last
    | cons p rest =>
      have hne : (p :: rest) ≠ [] := by simp
      have hperm := pickNearest_perm last (p :: rest) hne
      have hlen : (pickNearest last (p :: rest)).2.length ≤ n := by
        have hl := hperm.length_eq
        simp only [List.length_cons] at hl h
        omega
      exact IsGreedyChain.cons last _ _ _ _ (pickNearest_fst_mem last (p :: rest) hne)
        (fun y hy => pickNearest_min last (p :: rest) y hy) hperm (ih _ _ hlen)

theorem IsGreedyChain.perm_out {last : Coord} {remaining out : List Coord}
    (h : IsGreedyChain last remaining out) : out.Perm remaining := by
  induction h with
  | nil => exact List.Perm.refl []
  | cons last q remaining rest out hmem hmin hperm hrec ih =>
    exact (ih.cons q).trans hperm.symm

theorem emitPair_eq_some {segType r1 r2 : String} {c1 c2 : Feature} {s : BoundarySegment}
    (h : emitPair segType r1 r2 c1 c2 = some s) :
    s.region1 = r1 ∧ s.region2 = r2 ∧ 2 ≤ s.coordinates.length ∧
    s.country1 = getCountryCode c1 ∧ s.country2 = getCountryCode c2 := by
  simp only [emitPair] at h
  split at h
  · next hge =>
    rw [Option.some.injEq] at h
    subst h
    exact ⟨rfl, rfl, hge, rfl, rfl⟩
  · cases h

theorem renumber_fields {s : BoundarySegment} {l : List BoundarySegment}
    (h : s ∈ renumberSegments l) :
    ∃ s0 ∈ l, s.coordinates = s0.coordinates ∧ s.region1 = s0.region1 ∧
      s.region2 = s0.region2 ∧ s.country1 = s0.country1 ∧ s.country2 = s0.country2 := by
  unfold renumberSegments at h
  rcases List.mem_map.mp h with ⟨p, hp, rfl⟩
  have hmem : p.2 ∈ l := by
    have hm : p.2 ∈ l.enum.map Prod.snd := List.mem_map_of_mem Prod.snd hp
    rwa [List.enum_map_snd] at hm
  exact ⟨p.2, hmem, rfl, rfl, rfl, rfl, rfl⟩

theorem mem_boundariesFromGroups {segType : String} {groups : List (String × List Feature)}
    {s : BoundarySegment} (h : s ∈ boundariesFromGroups segType groups) :
    ∃ rp ∈ pairsAfter groups, ∃ c1 ∈ rp.1.2, ∃ c2 ∈ rp.2.2, ∃ s0,
      emitPair segType rp.1.1 rp.2.1 c1 c2 = some s0 ∧
      s.coordinates = s0.coordinates ∧ s.region1 = s0.region1 ∧ s.region2 = s0.region2 ∧
      s.country1 = s0.country1 ∧ s.country2 = s0.country2 := by
  unfold boundariesFromGroups at h
  rcases renumber_fields h with ⟨s0, hs0, hco, hr1, hr2, hc1, hc2⟩
  rcases List.mem_flatMap.mp hs0 with ⟨rp, hrp, hmem1⟩
  rcases List.mem_flatMap.mp hmem1 with ⟨c1, hmc1, hmem2⟩
  rcases List.mem_filterMap.mp hmem2 with ⟨c2, hmc2, hemit⟩
  exact ⟨rp, hrp, c1, hmc1, c2, hmc2, s0, hemit, hco, hr1, hr2, hc1, hc2⟩

theorem pairsAfter_mem {α : Type} {l : List α} {p : α × α} (h : p ∈ pairsAfter l) :
    p.1 ∈ l ∧ p.2 ∈ l := by
  induction l with
  | nil => cases h
  | cons x xs ih =>
    unfold pairsAfter at h
    rcases List.mem_append.mp h with h1 | h2
    · rcases List.mem_map.mp h1 with ⟨y, hy, rfl⟩
      exact ⟨List.mem_cons_self _ _, List.mem_cons_of_mem _ hy⟩
    · exact ⟨List.mem_cons_of_mem _ (ih h2).1, List.mem_cons_of_mem _ (ih h2).2⟩

theorem pairsAfter_map_ne {α β : Type} (f : α → β) {l : List α}
    (hnd : (l.map f).Nodup) {p : α × α} (h : p ∈ pairsAfter l) : f p.1 ≠ f p.2 := by
  induction l with
  | nil => cases h
  | cons x xs ih =>
    simp only [List.map_cons, List.nodup_cons] at hnd
    unfold pairsAfter at h
    rcases List.mem_append.mp h with h1 | h2
    · rcases List.mem_map.mp h1 with ⟨y, hy, rfl⟩
      intro he
      exact hnd.1 (he ▸ List.mem_map_of_mem f hy)
    · exact ih hnd.2 h2

theorem keys_insertGrouped (groups : List (String × List Feature)) (key : String) (f : Feature) :
    (insertGrouped groups key f).map Prod.fst =
      if key ∈ groups.map Prod.fst then groups.map Prod.fst
      else groups.map Prod.fst ++ [key] := by
  induction groups with
  | nil => simp [insertGrouped]
  | cons g rest ih =>
    simp only [insertGrouped]
    by_cases hg : g.1 = key
    · rw [if_pos hg]
      simp [hg]
    · rw [if_neg hg]
      simp only [List.map_cons, ih]
      by_cases hk : key ∈ rest.map Prod.fst
      · rw [if_pos hk, if_pos (List.mem_cons_of_mem _ hk)]
      · rw [if_neg hk, if_neg ?hcond]
        · simp
        · case hcond =>
          simp only [List.mem_cons]
          push_neg
          exact ⟨fun he => hg he.symm, hk⟩

theorem keys_nodup_insertGrouped {groups : List (String × List Feature)} {key : String}
    {f : Feature} (h : (groups.map Prod.fst).Nodup) :
    ((insertGrouped groups key f).map Prod.fst).Nodup := by
  rw [keys_insertGrouped]
  split
  · exact h
  · next hk =>
    simp [List.nodup_append, h, hk]

theorem createDataDrivenRegions_keys_nodup (countries : List Feature) :
    ((createDataDrivenRegions countries).map Prod.fst).Nodup := by
  suffices hgen : ∀ (l : List Feature) (gs : List (String × List Feature)),
      (gs.map Prod.fst).Nodup →
      ((l.foldl (fun gs c =>
        insertGrouped gs (derivedRegionKey (featureContinent c) (featureSubregion c)) c)
          gs).map Prod.fst).Nodup by
    exact hgen countries [] (by simp)
  intro l
  induction l with
  | nil => intro gs h; exact h
  | cons c cs ih =>
    intro gs h
    exact ih _ (keys_nodup_insertGrouped h)

theorem mem_insertGrouped {groups : List (String × List Feature)} {key : String} {f : Feature}
    {g : String × List Feature} (hg : g ∈ insertGrouped groups key f) :
    ∀ x ∈ g.2, (∃ g' ∈ groups, x ∈ g'.2) ∨ x = f := by
  induction groups with
  | nil =>
    simp only [insertGrouped, List.mem_singleton] at hg
    subst hg
    intro x hx
    simp only [List.mem_singleton] at hx
    exact Or.inr hx
  | cons g0 rest ih =>
    simp only [insertGrouped] at hg
    by_cases h0 : g0.1 = key
    · rw [if_pos h0] at hg
      rcases List.mem_cons.mp hg with rfl | hmem
      · intro x hx
        rcases List.mem_append.mp hx with hl | hr
        · exact Or.inl ⟨g0, List.mem_cons_self _ _, hl⟩
        · simp only [List.mem_singleton] at hr
          exact Or.inr hr
      · intro x hx
        exact Or.inl ⟨g, List.mem_cons_of_mem _ hmem, hx⟩
    · rw [if_neg h0] at hg
      rcases List.mem_cons.mp hg with rfl | hmem
      · intro x hx
        exact Or.inl ⟨g, List.mem_cons_self _ _, hx⟩
      · intro x hx
        rcases ih hmem x hx with ⟨g', hg', hx'⟩ | hxf
        · exact Or.inl ⟨g', List.mem_cons_of_mem _ hg', hx'⟩
        · exact Or.inr hxf

theorem mem_createDataDrivenRegions {countries : List Feature} {g : String × List Feature}
    (hg : g ∈ createDataDrivenRegions countries) : ∀ x ∈ g.2, x ∈ countries := by
  suffices hgen : ∀ (l : List Feature) (gs : List (String × List Feature))
      (g : String × List Feature),
      g ∈ l.foldl (fun gs c =>
        insertGrouped gs (derivedRegionKey (featureContinent c) (featureSubregion c)) c) gs →
      ∀ x ∈ g.2, (∃ g' ∈ gs, x ∈ g'.2) ∨ x ∈ l by
    intro x hx
    rcases hgen countries [] g hg x hx with ⟨g', hg', _⟩ | hxl
    · cases hg'
    · exact hxl
  intro l
  induction l with
  | nil =>
    intro gs g hg x hx
    exact Or.inl ⟨g, hg, hx⟩
  | cons c cs ih =>
    intro gs g hg x hx
    rcases ih _ g hg x hx with hgs | hcs
    · rcases hgs with ⟨g', hg', hx'⟩
      rcases mem_insertGrouped hg' x hx' with ⟨g'', hg'', hx''⟩ | hxc
      · exact Or.inl ⟨g'', hg'', hx''⟩
      · exact Or.inr (hxc ▸ List.mem_cons_self c cs)
    · exact Or.inr (List.mem_cons_of_mem c hcs)

/-- C5: every emitted BoundarySegment carries two distinct region labels
and at least two coordinate points, and a country pair whose rings share
fewer than two points within tolerance contributes no segment. -/
theorem c5_segment_invariants (useDataDrivenRegions : Bool) (countries : List Feature)
    (s : BoundarySegment) (hs : s ∈ regionBoundariesFor useDataDrivenRegions countries) :
    (s.region1 ≠ s.region2 ∧ 2 ≤ s.coordinates.length) ∧
    (∀ (t r1 r2 : String) (c1 c2 : Feature),
      (findSharedBoundary (extractCoordinates c1.geometry)
        (extractCoordinates c2.geometry)).length < 2 →
      emitPair t r1 r2 c1 c2 = none) := by
  have hmain : ∀ (t : String) (groups : List (String × List Feature)),
      (groups.map Prod.fst).Nodup → s ∈ boundariesFromGroups t groups →
      s.region1 ≠ s.region2 ∧ 2 ≤ s.coordinates.length := by
    intro t groups hnd hmem
    rcases mem_boundariesFromGroups hmem with
      ⟨rp, hrp, c1, hc1, c2, hc2, s0, hemit, hco, hr1, hr2, hcc1, hcc2⟩
    have hfields := emitPair_eq_some hemit
    have hne := pairsAfter_map_ne Prod.fst hnd hrp
    constructor
    · rw [hr1, hr2, hfields.1, hfields.2.1]
      exact hne
    · rw [hco]
      exact hfields.2.2.1
  constructor
  · unfold regionBoundariesFor at hs
    cases useDataDrivenRegions with
    | false =>
      simp only [Bool.false_eq_true, if_neg] at hs
      unfold createManualRegionBoundaries at hs
      refine hmain _ _ ?_ hs
      rw [List.map_map]
      exact (by decide : (REGIONS.map Prod.fst).Nodup)
    | true =>
      simp only [if_pos] at hs
      unfold createDataDrivenRegionBoundaries at hs
      exact hmain _ _ (createDataDrivenRegions_keys_nodup countries) hs
  · intro t r1 r2 c1 c2 hlt
    simp only [emitPair]
    rw [if_neg (not_le.mpr hlt)]

/-- Witness for c5_segment_invariants: the data-driven US/GT segment. -/
theorem c5_segment_invariants_witness :
    (demoSegment.region1 ≠ demoSegment.region2 ∧ 2 ≤ demoSegment.coordinates.length) ∧
    (∀ (t r1 r2 : String) (c1 c2 : Feature),
      (findSharedBoundary (extractCoordinates c1.geometry)
        (extractCoordinates c2.geometry)).length < 2 →
      emitPair t r1 r2 c1 c2 = none) :=
  c5_segment_invariants true [demoFeatureUS, demoFeatureGT] demoSegment (by decide)

/-- C9: for at least three shared points, the emitted polyline starts at
the first discovered point, is built by repeatedly appending a remaining
point of minimum planar distance to the chain end, and is a permutation
of the input points. -/
theorem c9_greedy_polyline (points : List Coord) (h : 3 ≤ points.length) :
    ∃ hd tl out, points = hd :: tl ∧ sortBoundaryPoints points = hd :: out ∧
      IsGreedyChain hd tl out ∧ (sortBoundaryPoints points).Perm points := by
  cases points with
  | nil => simp at h
  | cons hd tl =>
    have hgt : ¬ (hd :: tl).length ≤ 2 := by
      simp only [List.length_cons] at h ⊢
      omega
    have hsort : sortBoundaryPoints (hd :: tl) = hd :: chainPoints tl.length hd tl := by
      unfold sortBoundaryPoints
      rw [if_neg hgt]
    have hchain := chainPoints_greedy tl.length hd tl (le_refl _)
    refine ⟨hd, tl, chainPoints tl.length hd tl, rfl, hsort, hchain, ?_⟩
    rw [hsort]
    exact hchain.perm_out.cons hd

/-- Witness for c9_greedy_polyline on three collinear points. -/
theorem c9_greedy_polyline_witness :
    ∃ hd tl out, ([((0 : ℚ), (0 : ℚ)), (5, 0), (1, 0)] : List Coord) = hd :: tl ∧
      sortBoundaryPoints [((0 : ℚ), (0 : ℚ)), (5, 0), (1, 0)] = hd :: out ∧
      IsGreedyChain hd tl out ∧
      (sortBoundaryPoints [((0 : ℚ), (0 : ℚ)), (5, 0), (1, 0)]).Perm
        [((0 : ℚ), (0 : ℚ)), (5, 0), (1, 0)] :=
  c9_greedy_polyline [(0, 0), (5, 0), (1, 0)] (by decide)

theorem regionBoundariesFor_countries_mem {mode : Bool} {fs : List Feature}
    {s : BoundarySegment} (hs : s ∈ regionBoundariesFor mode fs) :
    ∃ c1f ∈ fs, ∃ c2f ∈ fs,
      s.country1 = getCountryCode c1f ∧ s.country2 = getCountryCode c2f := by
  have hgen : ∀ (t : String) (groups : List (String × List Feature)),
      (∀ g ∈ groups, ∀ x ∈ g.2, x ∈ fs) → s ∈ boundariesFromGroups t groups →
      ∃ c1f ∈ fs, ∃ c2f ∈ fs,
        s.country1 = getCountryCode c1f ∧ s.country2 = getCountryCode c2f := by
    intro t groups hsub hmem
    rcases mem_boundariesFromGroups hmem with
      ⟨rp, hrp, c1, hc1, c2, hc2, s0, hemit, _, _, _, hcc1, hcc2⟩
    have hp := pairsAfter_mem hrp
    have hfields := emitPair_eq_some hemit
    exact ⟨c1, hsub rp.1 hp.1 c1 hc1, c2, hsub rp.2 hp.2 c2 hc2,
      hcc1.trans hfields.2.2.2.1, hcc2.trans hfields.2.2.2.2⟩
  unfold regionBoundariesFor at hs
  cases mode with
  | false =>
    simp only [Bool.false_eq_true, if_neg] at hs
    unfold createManualRegionBoundaries at hs
    refine hgen _ _ ?_ hs
    intro g hg x hx
    rcases List.mem_map.mp hg with ⟨rg, _, rfl⟩
    exact List.mem_of_mem_filter hx
  | true =>
    simp only [if_pos] at hs
    unfold createDataDrivenRegionBoundaries at hs
    refine hgen _ _ ?_ hs
    intro g hg x hx
    exact mem_createDataDrivenRegions hg x hx

/-- C10: every feature admitted by the load filters has a resolved country
code that is present in the static region table and not excluded, and in
either classification mode every emitted boundary segment names only
country codes with a static region assignment outside the excluded set.
The admitted collection is the one consumed by classification, boundary
extraction and height computation alike. -/
theorem c10_region_table_closure (raw : List Feature) (useDataDrivenRegions : Bool) :
    (∀ f ∈ admittedFeatures raw, ∃ c, getCountryCode f = some c ∧
        (REGION_MAPPING.lookup c).isSome ∧ c ∉ EXCLUDED_COUNTRIES) ∧
    (∀ s ∈ regionBoundariesPipeline raw useDataDrivenRegions,
        (∃ c, s.country1 = some c ∧ (REGION_MAPPING.lookup c).isSome ∧
          c ∉ EXCLUDED_COUNTRIES) ∧
        (∃ c, s.country2 = some c ∧ (REGION_MAPPING.lookup c).isSome ∧
          c ∉ EXCLUDED_COUNTRIES)) := by
  have hadm : ∀ f ∈ admittedFeatures raw, ∃ c, getCountryCode f = some c ∧
      (REGION_MAPPING.lookup c).isSome ∧ c ∉ EXCLUDED_COUNTRIES := by
    intro f hf
    unfold admittedFeatures at hf
    have h2 := List.mem_filter.mp hf
    have h1 := List.mem_filter.mp h2.1
    have hreg := h2.2
    unfold featureHasStaticRegion at hreg
    rcases hcode : getCountryCode f with _ | c
    · rw [hcode] at hreg
      simp at hreg
    · rw [hcode] at hreg
      simp only [Option.some_bind] at hreg
      refine ⟨c, rfl, hreg, ?_⟩
      have hexc := h1.2
      unfold isExcludedFeature at hexc
      rw [hcode] at hexc
      simpa using hexc
  refine ⟨hadm, fun s hs => ?_⟩
  unfold regionBoundariesPipeline at hs
  rcases regionBoundariesFor_countries_mem hs with ⟨c1f, hc1f, c2f, hc2f, hcc1, hcc2⟩
  have hc1adm : c1f ∈ admittedFeatures raw := List.mem_of_mem_filter hc1f
  have hc2adm : c2f ∈ admittedFeatures raw := List.mem_of_mem_filter hc2f
  rcases hadm c1f hc1adm with ⟨c1, hcode1, hsome1, hexc1⟩
  rcases hadm c2f hc2adm with ⟨c2, hcode2, hsome2, hexc2⟩
  exact ⟨⟨c1, hcc1.trans hcode1, hsome1, hexc1⟩, ⟨c2, hcc2.trans hcode2, hsome2, hexc2⟩⟩

/-- Witness for c10_region_table_closure on the two demo features. -/
theorem c10_region_table_closure_witness :
    (∃ c, getCountryCode demoFeatureUS = some c ∧ (REGION_MAPPING.lookup c).isSome ∧
      c ∉ EXCLUDED_COUNTRIES) ∧
    (∃ c, demoSegment.country1 = some c ∧ (REGION_MAPPING.lookup c).isSome ∧
      c ∉ EXCLUDED_COUNTRIES) := by
  have hc := c10_region_table_closure [demoFeatureUS, demoFeatureGT] true
  exact ⟨hc.1 demoFeatureUS (by decide), (hc.2 demoSegment (by decide)).1⟩

end Geobridge
